import Mathlib

/-!
# go-utils: a verification development

Shallow embedding of the four units of `repooooo/go-utils`:

* `sl/multihandler.go`  : the fan-out `MultiHandler` over `slog.Handler` delegates,
* `sl/sl.go`            : `Err`, the error-to-attribute helper,
* `loader/loader.go`    : `Loader.MustLoad`, `Loader.MustLoadPath`, `FetchConfigPath`,
* `storage/postgres/postgres.go` : `Storage.Stop`.

Code that lives outside the repository (the delegates behind the `slog.Handler`
interface, the `flag`, `os`, `cleanenv`, `gorm` and `database/sql` packages, the
logger) is not modelled: it enters as an interface record whose methods are
arbitrary functions over an ambient world `W`, or as the outcome of a call. The one
exception is `slog.Logger`, whose level gate decides how many records a logging call
emits: its methods `log`, `Warn`, `Info` and `With` are written out over a handler.
-/

/-! ## The `log/slog` data model -/

namespace slog

/-- The type `slog.Level` is an integer; larger is more severe. -/
abbrev Level := Int

def LevelDebug : Level := -4
def LevelInfo : Level := 0
def LevelWarn : Level := 4
def LevelError : Level := 8

/-- The payload of a `slog.Value`, by kind (the kinds the repository builds or forwards). -/
inductive Value where
  | KindString (s : String)
  | KindInt64 (i : Int)
  | KindBool (b : Bool)
  deriving DecidableEq, Repr

/-- Embeds `slog.StringValue(value)`: the value of kind string holding `value`. -/
def StringValue (value : String) : Value := Value.KindString value

/-- The struct `slog.Attr`: a key and a value. -/
structure Attr where
  Key : String
  Value : slog.Value
  deriving DecidableEq, Repr

/-- Embeds `slog.String(key, value)`: the attribute with that key and string value (named
`StringAttr` here, the name `String` being the type of strings). -/
def StringAttr (key value : String) : Attr := { Key := key, Value := StringValue value }

/-- The struct `slog.Record` (time as nanoseconds, the program counter as a number). -/
structure Record where
  Time : Nat
  Message : String
  Level : slog.Level
  PC : Nat
  attrs : List Attr
  deriving DecidableEq, Repr

end slog

/-- A `context.Context`. The repository only passes it on to the delegates. -/
structure Context where
  token : Nat
  deriving DecidableEq, Repr

/-- A non-nil value of the Go interface type `error`: its dynamic type and the text its
`Error()` method returns. The nil error is `none : Option GoError`. -/
structure GoError where
  dynType : String
  message : String
  deriving DecidableEq, Repr

/-- Embeds `context.Background()`, the context the logger passes to its handler. -/
def Context.Background : Context := { token := 0 }

/-- The method `Error()` of the interface `error`. -/
def GoError.Error (e : GoError) : String := e.message

namespace slog

/-- The interface `slog.Handler`, as the record of its four methods over handler values `H`.
`Handle` may read and write the ambient world `W` (its sinks); `Enabled` may read it (a level
held in a variable); `WithAttrs` and `WithGroup` derive a handler value. A nil interface value
is not a member of `H`: calling a method on it is a run-time panic in Go, and `NewMultiHandler`
does not check for it. In `Handle`, `none` is the nil error. -/
structure Handler (H W : Type) where
  Enabled : H → Context → Level → W → Bool
  Handle : H → Context → Record → W → Option GoError × W
  WithAttrs : H → List Attr → H
  WithGroup : H → String → H

/-- The same delegates, observed: the world carries, next to `W`, the list of the delegates whose
`Handle` was called, in call order. -/
def Handler.traced {H W : Type} (I : Handler H W) : Handler H (W × List H) where
  Enabled h ctx level s := I.Enabled h ctx level s.1
  Handle h ctx r s := ((I.Handle h ctx r s.1).1, ((I.Handle h ctx r s.1).2, s.2 ++ [h]))
  WithAttrs := I.WithAttrs
  WithGroup := I.WithGroup

/-- The same handlers, observed: the world carries, next to `W`, the list of the records that
were handed to `Handle`, in order: the log records emitted. -/
def Handler.recording {H W : Type} (I : Handler H W) : Handler H (W × List Record) where
  Enabled h ctx level s := I.Enabled h ctx level s.1
  Handle h ctx r s := ((I.Handle h ctx r s.1).1, ((I.Handle h ctx r s.1).2, s.2 ++ [r]))
  WithAttrs := I.WithAttrs
  WithGroup := I.WithGroup

/-- Embeds `slog.NewRecord(t, level, msg, pc)`: a record without attributes. -/
def NewRecord (t : Nat) (level : Level) (msg : String) (pc : Nat) : Record :=
  { Time := t, Message := msg, Level := level, PC := pc, attrs := [] }

/-- The struct `slog.Logger`: the handler it writes to. -/
structure Logger (H : Type) where
  handler : H
  deriving DecidableEq, Repr

/-- The method `(*Logger).log` of the standard library, for a call with a message and no
further arguments: it returns at once when the handler is not enabled at the level; otherwise
it builds one record and hands it to `Handle`, dropping the error `Handle` returns. The time
stamp and the program counter of the record are fixed to 0. -/
def Logger.log {H W : Type} (I : Handler H W) (l : Logger H) (level : Level) (msg : String)
    (w : W) : W :=
  if I.Enabled l.handler Context.Background level w then
    (I.Handle l.handler Context.Background (NewRecord 0 level msg 0) w).2
  else w

/-- The method `(*Logger).Warn(msg)`: `log` at level Warn. -/
def Logger.Warn {H W : Type} (I : Handler H W) (l : Logger H) (msg : String) (w : W) : W :=
  l.log I LevelWarn msg w

/-- The method `(*Logger).Info(msg)`: `log` at level Info. -/
def Logger.Info {H W : Type} (I : Handler H W) (l : Logger H) (msg : String) (w : W) : W :=
  l.log I LevelInfo msg w

/-- The method `(*Logger).With(attrs)`: the receiver when there are no attributes, otherwise a
logger over the handler derived with them. -/
def Logger.With {H W : Type} (I : Handler H W) (l : Logger H) (attrs : List Attr) : Logger H :=
  if attrs.isEmpty then l else { handler := I.WithAttrs l.handler attrs }

end slog

/-! ## `sl/multihandler.go` -/

namespace sl

/-- The struct `MultiHandler`: the slice `handlers` of delegates. -/
structure MultiHandler (H : Type) where
  handlers : List H
  deriving DecidableEq, Repr

/-- Embeds `NewMultiHandler(handlers ...slog.Handler)`: stores the variadic slice as it is. -/
def NewMultiHandler {H : Type} (handlers : List H) : MultiHandler H :=
  { handlers := handlers }

/-- The loop of `Handle`: `for _, handler := range m.handlers`, returning the first non-nil
error at once. -/
def MultiHandler.handleLoop {H W : Type} (I : slog.Handler H W) (ctx : Context)
    (r : slog.Record) : List H → W → Option GoError × W
  | [], w => (none, w)
  | handler :: rest, w =>
    match I.Handle handler ctx r w with
    | (some err, w1) => (some err, w1)
    | (none, w1) => MultiHandler.handleLoop I ctx r rest w1

/-- Embeds `func (m *MultiHandler) Handle(ctx, r) error`. -/
def MultiHandler.Handle {H W : Type} (I : slog.Handler H W) (m : MultiHandler H)
    (ctx : Context) (r : slog.Record) (w : W) : Option GoError × W :=
  MultiHandler.handleLoop I ctx r m.handlers w

/-- The loop of `Enabled`: returns true at the first delegate that is enabled. -/
def MultiHandler.enabledLoop {H W : Type} (I : slog.Handler H W) (ctx : Context)
    (level : slog.Level) (w : W) : List H → Bool
  | [] => false
  | handler :: rest =>
    if I.Enabled handler ctx level w then true
    else MultiHandler.enabledLoop I ctx level w rest

/-- Embeds `func (m *MultiHandler) Enabled(ctx, level) bool`. -/
def MultiHandler.Enabled {H W : Type} (I : slog.Handler H W) (m : MultiHandler H)
    (ctx : Context) (level : slog.Level) (w : W) : Bool :=
  MultiHandler.enabledLoop I ctx level w m.handlers

/-- Embeds `func (m *MultiHandler) WithAttrs(attrs) slog.Handler`. The local slice `newHandlers`
starts nil and grows by one `append` per delegate. The method has a pointer receiver: the
first component is the handler returned, the second the struct `*m` when the method returns
(the body never assigns to it). -/
def MultiHandler.WithAttrs {H W : Type} (I : slog.Handler H W) (m : MultiHandler H)
    (attrs : List slog.Attr) : MultiHandler H × MultiHandler H :=
  let newHandlers : List H :=
    m.handlers.foldl (fun newHandlers handler => newHandlers ++ [I.WithAttrs handler attrs]) []
  ({ handlers := newHandlers }, m)

/-- Embeds `func (m *MultiHandler) WithGroup(name) slog.Handler`; components as for `WithAttrs`. -/
def MultiHandler.WithGroup {H W : Type} (I : slog.Handler H W) (m : MultiHandler H)
    (name : String) : MultiHandler H × MultiHandler H :=
  let newHandlers : List H :=
    m.handlers.foldl (fun newHandlers handler => newHandlers ++ [I.WithGroup handler name]) []
  ({ handlers := newHandlers }, m)

/-- The world after each of the listed delegates had `Handle` called once with the record,
in list order (whatever each call returned). -/
def handledBy {H W : Type} (I : slog.Handler H W) (ctx : Context) (r : slog.Record) :
    List H → W → W
  | [], w => w
  | h :: rest, w => handledBy I ctx r rest (I.Handle h ctx r w).2

/-- One step of a derivation chain: a call of `WithAttrs` or of `WithGroup`. -/
inductive Derivation where
  | attrs (a : List slog.Attr)
  | group (g : String)
  deriving DecidableEq, Repr

/-- The derivation step applied to a delegate. -/
def Derivation.onDelegate {H W : Type} (I : slog.Handler H W) (h : H) : Derivation → H
  | .attrs a => I.WithAttrs h a
  | .group g => I.WithGroup h g

/-- The derivation step applied to a `MultiHandler`: the handler the method returns. -/
def Derivation.onMulti {H W : Type} (I : slog.Handler H W) (m : MultiHandler H) :
    Derivation → MultiHandler H
  | .attrs a => (m.WithAttrs I a).1
  | .group g => (m.WithGroup I g).1

/-- A chain of derivation steps applied to a delegate, first step first. -/
def Derivation.chainOnDelegate {H W : Type} (I : slog.Handler H W) (chain : List Derivation)
    (h : H) : H :=
  chain.foldl (Derivation.onDelegate I) h

/-- A chain of derivation steps applied to a `MultiHandler`, first step first: each step is a
method call on the handler the previous step returned. -/
def Derivation.chainOnMulti {H W : Type} (I : slog.Handler H W) (chain : List Derivation)
    (m : MultiHandler H) : MultiHandler H :=
  chain.foldl (Derivation.onMulti I) m

/-- Embeds `func Err(err error) slog.Attr`. The argument is an interface value: `none` is the nil
error, on which the call `err.Error()` is a nil dereference; the run-time panic is the result
`Except.error`. -/
def Err (err : Option GoError) : Except String slog.Attr :=
  match err with
  | none => .error "runtime error: invalid memory address or nil pointer dereference"
  | some e => .ok { Key := "error", Value := slog.StringValue e.Error }

end sl

/-! ## `loader/loader.go` -/

namespace loader

/-- The struct `Loader`. -/
structure Loader where
  configPath : String
  deriving DecidableEq, Repr

/-- Embeds `func NewConfigLoader(configPath string) *Loader`. -/
def NewConfigLoader (configPath : String) : Loader :=
  { configPath := configPath }

/-- What `os.Stat(path)` reported, as far as `MustLoadPath` looks at it: no error, an error for
which `os.IsNotExist` holds, or any other error. -/
inductive StatResult where
  | found
  | notExist
  | otherError
  deriving DecidableEq, Repr

/-- The two calls `MustLoadPath` makes outside the repository, over configuration targets `C`
(the argument of empty interface type) and a world `W` (the file system, and the memory the target points
to, which the parser fills): `os.Stat` and `cleanenv.ReadConfig`, the latter returning the
nil error as `none`. -/
structure Sys (C W : Type) where
  Stat : String → W → StatResult × W
  ReadConfig : String → C → W → Option GoError × W

/-- A call made through `Sys`, with the path it was made on. -/
inductive SysCall where
  | stat (path : String)
  | readConfig (path : String)
  deriving DecidableEq, Repr

/-- The same system, observed: the world carries the list of the calls made, in order. -/
def Sys.traced {C W : Type} (S : Sys C W) : Sys C (W × List SysCall) where
  Stat path s := ((S.Stat path s.1).1, ((S.Stat path s.1).2, s.2 ++ [SysCall.stat path]))
  ReadConfig path cfg s :=
    ((S.ReadConfig path cfg s.1).1,
      ((S.ReadConfig path cfg s.1).2, s.2 ++ [SysCall.readConfig path]))

/-- Embeds `func (cl *Loader) MustLoadPath(cfg) interface`. A panic is the result
`Except.error` with the panic value. -/
def Loader.MustLoadPath {C W : Type} (S : Sys C W) (cl : Loader) (cfg : C) (w : W) :
    Except String C × W :=
  match S.Stat cl.configPath w with
  | (StatResult.notExist, w1) => (.error ("config file does not exist: " ++ cl.configPath), w1)
  | (_, w1) =>
    match S.ReadConfig cl.configPath cfg w1 with
    | (some err, w2) => (.error ("cannot read config: " ++ err.Error), w2)
    | (none, w2) => (.ok cfg, w2)

/-- Embeds `func (cl *Loader) MustLoad(cfg) interface`. -/
def Loader.MustLoad {C W : Type} (S : Sys C W) (cl : Loader) (cfg : C) (w : W) :
    Except String C × W :=
  if cl.configPath == "" then (.error "config path is empty", w)
  else cl.MustLoadPath S cfg w

/-- The outcome of `flag.StringVar` for the flag `config` followed by `flag.Parse()`: either
control does not come back (the flag package leaves the process on a command line it cannot
parse, and panics when the flag is registered a second time), or `res` holds the value given
to `-config`, the default empty string when the flag is absent. -/
inductive FlagOutcome where
  | parsed (res : String)
  | stopped
  deriving DecidableEq, Repr

/-- Embeds `os.Getenv(key)` over an environment: the value, the empty string when the variable is unset. -/
def Getenv (env : String → Option String) (key : String) : String :=
  (env key).getD ""

/-- Embeds `func FetchConfigPath() string`; `none` when control does not come back from the flag
package. -/
def FetchConfigPath (fl : FlagOutcome) (env : String → Option String) : Option String :=
  match fl with
  | .stopped => none
  | .parsed res =>
    let res := if res == "" then Getenv env "CONFIG_PATH" else res
    some res

end loader

/-! ## `storage/postgres/postgres.go` -/

namespace postgres

/-- The struct `Storage`: the logger and the gorm handle (both non-nil, as `New` builds them). -/
structure Storage (L G : Type) where
  log : L
  db : G

/-- The calls `Stop` makes outside the repository, over loggers `L`, gorm handles `G`, sql
handles `Q` and a world `W`: `(*slog.Logger).With`, `.Warn`, `.Info`, `(*gorm.DB).DB` and
`(*sql.DB).Close` (nil error: `none`). -/
structure Deps (L G Q W : Type) where
  With : L → List slog.Attr → L
  Warn : L → String → W → W
  Info : L → String → W → W
  DB : G → W → Except GoError Q × W
  Close : Q → W → Option GoError × W

/-- A call made through `Deps` that acts on the world. -/
inductive Event where
  | getDB
  | close
  | warn (msg : String)
  | info (msg : String)
  deriving DecidableEq, Repr

/-- Tells whether the call hands a record to the logger (`Warn` or `Info`). -/
def Event.isLog : Event → Bool
  | .warn _ => true
  | .info _ => true
  | _ => false

/-- The same collaborators, observed: the world carries the list of the calls made, in order. -/
def Deps.traced {L G Q W : Type} (E : Deps L G Q W) : Deps L G Q (W × List Event) where
  With := E.With
  Warn l msg s := (E.Warn l msg s.1, s.2 ++ [Event.warn msg])
  Info l msg s := (E.Info l msg s.1, s.2 ++ [Event.info msg])
  DB g s := ((E.DB g s.1).1, ((E.DB g s.1).2, s.2 ++ [Event.getDB]))
  Close q s := ((E.Close q s.1).1, ((E.Close q s.1).2, s.2 ++ [Event.close]))

/-- The collaborators of `Stop` when the logger is a `slog.Logger` over a handler of `I`, with
the gorm and sql calls given. -/
def Deps.ofLogger {H G Q W : Type} (I : slog.Handler H W)
    (getDB : G → W → Except GoError Q × W) (close : Q → W → Option GoError × W) :
    Deps (slog.Logger H) G Q W where
  With l attrs := l.With I attrs
  Warn l msg w := l.Warn I msg w
  Info l msg w := l.Info I msg w
  DB := getDB
  Close := close

/-- The same, observed: the world carries the list of the log records emitted, that is, handed
to the handler of the logger; the gorm and sql calls leave that list alone. -/
def Deps.recording {H G Q W : Type} (I : slog.Handler H W)
    (getDB : G → W → Except GoError Q × W) (close : Q → W → Option GoError × W) :
    Deps (slog.Logger H) G Q (W × List slog.Record) :=
  Deps.ofLogger I.recording
    (fun g s => ((getDB g s.1).1, ((getDB g s.1).2, s.2)))
    (fun q s => ((close q s.1).1, ((close q s.1).2, s.2)))

/-- Embeds `func (s *Storage) Stop()`. The logger derived by `s.log.With(...)` is dropped, as in the
source. The first component is `Except.ok ()` for a normal return and `Except.error` for a
failure that leaves the function. -/
def Storage.Stop {L G Q W : Type} (E : Deps L G Q W) (s : Storage L G) (w : W) :
    Except GoError Unit × W :=
  let operation := "storage.postgres.Stop"
  let _ := E.With s.log [slog.StringAttr "operation" operation]
  match E.DB s.db w with
  | (.error _, w1) => (.ok (), E.Warn s.log "failed to get *sql.DB instance" w1)
  | (.ok sqlDB, w1) =>
    match E.Close sqlDB w1 with
    | (some _, w2) => (.ok (), E.Warn s.log "close database failed" w2)
    | (none, w2) => (.ok (), E.Info s.log "database closed" w2)

end postgres

/-! ## Sample collaborators, for evaluating the definitions on concrete inputs -/

namespace Sample

/-- A sample delegate: a sink with an identifier, a minimum level, a switch that makes writing
to it fail, and the attributes and groups it was derived with. -/
structure Sink where
  id : Nat
  minLevel : slog.Level
  failing : Bool
  attrs : List slog.Attr
  groups : List String
  deriving DecidableEq, Repr

/-- The sample delegates as `slog.Handler`; the world lists the identifiers of the sinks
written to, in order. -/
def sinks : slog.Handler Sink (List Nat) where
  Enabled s _ level _ := decide (s.minLevel ≤ level)
  Handle s _ _ w :=
    if s.failing then (some { dynType := "*errors.errorString", message := "write failed" }, w)
    else (none, w ++ [s.id])
  WithAttrs s a := { s with attrs := s.attrs ++ a }
  WithGroup s g := { s with groups := s.groups ++ [g] }

def text : Sink := { id := 1, minLevel := slog.LevelDebug, failing := false, attrs := [], groups := [] }
def json : Sink := { id := 2, minLevel := slog.LevelInfo, failing := false, attrs := [], groups := [] }
def broken : Sink := { id := 3, minLevel := slog.LevelError, failing := true, attrs := [], groups := [] }

def ctx : Context := { token := 0 }

def record : slog.Record :=
  { Time := 0, Message := "started", Level := slog.LevelInfo, PC := 0, attrs := [] }

def writeFailed : GoError := { dynType := "*errors.errorString", message := "write failed" }

/-- A sample system for the loader: only `config.yaml` exists and parses; a parse appends the
target to the world. -/
def disk : loader.Sys Nat (List Nat) where
  Stat path w := (if path == "config.yaml" then loader.StatResult.found
    else if path == "locked.yaml" then loader.StatResult.otherError
    else loader.StatResult.notExist, w)
  ReadConfig path cfg w :=
    if path == "config.yaml" then (none, w ++ [cfg])
    else (some { dynType := "*fs.PathError", message := "open " ++ path ++ ": no access" }, w)

/-- A sample sink that accepts records from level Error on only. -/
def errorsOnly : Sink :=
  { id := 4, minLevel := slog.LevelError, failing := false, attrs := [], groups := [] }

/-- A sample `DB()`: the first flag of the gorm handle says whether it succeeds, the second is
the sql handle. -/
def getDB {W : Type} (g : Bool × Bool) (w : W) : Except GoError Bool × W :=
  if g.1 then (.ok g.2, w)
  else (.error { dynType := "*errors.errorString", message := "invalid db" }, w)

/-- A sample `Close()`: the sql handle says whether it succeeds. -/
def closeDB {W : Type} (q : Bool) (w : W) : Option GoError × W :=
  if q then (none, w)
  else (some { dynType := "*errors.errorString", message := "close failed" }, w)

/-- A sample handler over a world of log lines: always enabled, it appends the message. -/
def recorder : slog.Handler Sink (List String) where
  Enabled _ _ _ _ := true
  Handle _ _ r w := (none, w ++ [r.Message])
  WithAttrs s a := { s with attrs := s.attrs ++ a }
  WithGroup s g := { s with groups := s.groups ++ [g] }

/-- Sample collaborators for `Stop`: the gorm handle says whether `DB()` and `Close()`
succeed; the world lists the messages the logger received. -/
def deps : postgres.Deps Unit (Bool × Bool) Bool (List String) where
  With l _ := l
  Warn _ msg w := w ++ ["WARN " ++ msg]
  Info _ msg w := w ++ ["INFO " ++ msg]
  DB g w :=
    if g.1 then (.ok g.2, w)
    else (.error { dynType := "*errors.errorString", message := "invalid db" }, w)
  Close q w :=
    if q then (none, w)
    else (some { dynType := "*errors.errorString", message := "close failed" }, w)

end Sample

/-! ## Theorems: `sl/multihandler.go` -/

namespace sl

theorem handledBy_append {H W : Type} (I : slog.Handler H W) (ctx : Context) (r : slog.Record)
    (xs ys : List H) (w : W) :
    handledBy I ctx r (xs ++ ys) w = handledBy I ctx r ys (handledBy I ctx r xs w) := by
  induction xs generalizing w with
  | nil => rfl
  | cons x xs ih => simp [handledBy, ih]

theorem handledBy_traced {H W : Type} (I : slog.Handler H W) (ctx : Context) (r : slog.Record)
    (ds : List H) (w : W) (log : List H) :
    handledBy I.traced ctx r ds (w, log) = (handledBy I ctx r ds w, log ++ ds) := by
  induction ds generalizing w log with
  | nil => simp [handledBy]
  | cons d ds ih =>
    have step : handledBy I.traced ctx r (d :: ds) (w, log)
        = handledBy I.traced ctx r ds ((I.Handle d ctx r w).2, log ++ [d]) := rfl
    rw [step, ih]
    simp [handledBy]

theorem handleLoop_first_failure {H W : Type} (I : slog.Handler H W) (ctx : Context)
    (r : slog.Record) (D : List H) (w : W) (k : Nat) (hk : k < D.length) (e : GoError)
    (hpre : ∀ i (hi : i < D.length), i < k →
      (I.Handle D[i] ctx r (handledBy I ctx r (D.take i) w)).1 = none)
    (hfail : (I.Handle D[k] ctx r (handledBy I ctx r (D.take k) w)).1 = some e) :
    MultiHandler.handleLoop I ctx r D w = (some e, handledBy I ctx r (D.take (k + 1)) w) := by
  induction D generalizing w k with
  | nil => simp at hk
  | cons d ds ih =>
    cases k with
    | zero =>
      simp only [List.getElem_cons_zero, List.take_zero, handledBy] at hfail
      simp only [MultiHandler.handleLoop, List.take_succ_cons, List.take_zero, handledBy]
      rcases hd : I.Handle d ctx r w with ⟨res, w1⟩
      rw [hd] at hfail
      simp only at hfail
      subst hfail
      rfl
    | succ k =>
      have h0 := hpre 0 (by simp) (by omega)
      simp only [List.getElem_cons_zero, List.take_zero, handledBy] at h0
      simp only [MultiHandler.handleLoop, List.take_succ_cons, handledBy]
      rcases hd : I.Handle d ctx r w with ⟨res, w1⟩
      rw [hd] at h0
      simp only at h0
      subst h0
      simp only
      have hk1 : k < ds.length := by simpa using hk
      apply ih w1 k hk1
      · intro i hi hik
        have := hpre (i + 1) (by simpa using hi) (by omega)
        simpa [handledBy, hd] using this
      · simpa [handledBy, hd] using hfail

theorem handleLoop_no_failure {H W : Type} (I : slog.Handler H W) (ctx : Context)
    (r : slog.Record) (D : List H) (w : W)
    (hall : ∀ i (hi : i < D.length),
      (I.Handle D[i] ctx r (handledBy I ctx r (D.take i) w)).1 = none) :
    MultiHandler.handleLoop I ctx r D w = (none, handledBy I ctx r D w) := by
  induction D generalizing w with
  | nil => rfl
  | cons d ds ih =>
    have h0 := hall 0 (by simp)
    simp only [List.getElem_cons_zero, List.take_zero, handledBy] at h0
    simp only [MultiHandler.handleLoop, handledBy]
    rcases hd : I.Handle d ctx r w with ⟨res, w1⟩
    rw [hd] at h0
    simp only at h0
    subst h0
    simp only
    apply ih w1
    intro i hi
    have := hall (i + 1) (by simpa using hi)
    simpa [handledBy, hd] using this


theorem withLoop_eq_map {H : Type} (f : H → H) (D acc : List H) :
    D.foldl (fun newHandlers handler => newHandlers ++ [f handler]) acc = acc ++ D.map f := by
  induction D generalizing acc with
  | nil => simp
  | cons d ds ih => simp [ih]

theorem enabledLoop_iff {H W : Type} (I : slog.Handler H W) (ctx : Context)
    (level : slog.Level) (w : W) (D : List H) :
    MultiHandler.enabledLoop I ctx level w D = true ↔ ∃ d ∈ D, I.Enabled d ctx level w = true := by
  induction D with
  | nil => simp [MultiHandler.enabledLoop]
  | cons d ds ih =>
    by_cases hd : I.Enabled d ctx level w = true
    · simp [MultiHandler.enabledLoop, hd]
    · simp [MultiHandler.enabledLoop, hd, ih]

theorem enabledLoop_iff_index {H W : Type} (I : slog.Handler H W) (ctx : Context)
    (level : slog.Level) (w : W) (D : List H) :
    MultiHandler.enabledLoop I ctx level w D = true
      ↔ ∃ i, ∃ hi : i < D.length, I.Enabled D[i] ctx level w = true := by
  rw [enabledLoop_iff]
  constructor
  · rintro ⟨d, hd, he⟩
    obtain ⟨i, hi, rfl⟩ := List.getElem_of_mem hd
    exact ⟨i, hi, he⟩
  · rintro ⟨i, hi, he⟩
    exact ⟨D[i], List.getElem_mem hi, he⟩

theorem chain_handlers {H W : Type} (I : slog.Handler H W) (chain : List Derivation)
    (m : MultiHandler H) :
    (chain.foldl (Derivation.onMulti I) m).handlers
      = m.handlers.map (fun d => chain.foldl (Derivation.onDelegate I) d) := by
  induction chain generalizing m with
  | nil => simp
  | cons c cs ih =>
    rw [List.foldl_cons, ih]
    cases c <;>
      simp [Derivation.onMulti, Derivation.onDelegate, MultiHandler.WithAttrs,
        MultiHandler.WithGroup, withLoop_eq_map]

/-- C1. `MultiHandler.Handle` forwards the record to the delegates in construction order and
stops at the first failure. If the delegates before position `k` return nil and the one at
position `k` returns the error `e` (each in the world the earlier calls left), then `Handle`
returns exactly `e`, the world is the one left by one call on each of the first `k + 1`
delegates in order, and the observed call list is exactly those `k + 1` delegates, the later
ones being absent. If no delegate fails, `Handle` returns nil and every delegate was called
once, in order. -/
theorem Handle_first_failure_aborts {H W : Type} (I : slog.Handler H W) (D : List H)
    (ctx : Context) (r : slog.Record) (w : W) (log : List H) :
    (∀ (k : Nat) (hk : k < D.length) (e : GoError),
      (∀ i (hi : i < D.length), i < k →
        (I.Handle D[i] ctx r (handledBy I ctx r (D.take i) w)).1 = none) →
      (I.Handle D[k] ctx r (handledBy I ctx r (D.take k) w)).1 = some e →
      (NewMultiHandler D).Handle I ctx r w = (some e, handledBy I ctx r (D.take (k + 1)) w)
      ∧ (NewMultiHandler D).Handle I.traced ctx r (w, log)
          = (some e, (handledBy I ctx r (D.take (k + 1)) w, log ++ D.take (k + 1))))
    ∧ ((∀ i (hi : i < D.length),
        (I.Handle D[i] ctx r (handledBy I ctx r (D.take i) w)).1 = none) →
      (NewMultiHandler D).Handle I ctx r w = (none, handledBy I ctx r D w)
      ∧ (NewMultiHandler D).Handle I.traced ctx r (w, log)
          = (none, (handledBy I ctx r D w, log ++ D))) := by
  refine ⟨?_, ?_⟩
  · intro k hk e hpre hfail
    refine ⟨handleLoop_first_failure I ctx r D w k hk e hpre hfail, ?_⟩
    have h := handleLoop_first_failure I.traced ctx r D (w, log) k hk e
      (by
        intro i hi hik
        rw [handledBy_traced]
        exact hpre i hi hik)
      (by
        rw [handledBy_traced]
        exact hfail)
    rw [handledBy_traced] at h
    exact h
  · intro hall
    refine ⟨handleLoop_no_failure I ctx r D w hall, ?_⟩
    have h := handleLoop_no_failure I.traced ctx r D (w, log)
      (by
        intro i hi
        rw [handledBy_traced]
        exact hall i hi)
    rw [handledBy_traced] at h
    exact h


/-- C1, evaluated: with the sample sinks `[text, broken, json]` the second delegate fails, so
`text` and `broken` are called, `json` is not, and the error of `broken` comes back; with
`[text, json]` nothing fails and both are called in order. -/
theorem Handle_first_failure_aborts_witness :
    ((Sample.sinks.Handle Sample.broken Sample.ctx Sample.record [1]).1 = some Sample.writeFailed
      ∧ (NewMultiHandler [Sample.text, Sample.broken, Sample.json]).Handle Sample.sinks.traced
          Sample.ctx Sample.record ([], [])
        = (some Sample.writeFailed, ([1], [Sample.text, Sample.broken])))
    ∧ (NewMultiHandler [Sample.text, Sample.json]).Handle Sample.sinks.traced
          Sample.ctx Sample.record ([], [])
        = (none, ([1, 2], [Sample.text, Sample.json])) :=
  ⟨⟨by decide,
    ((Handle_first_failure_aborts Sample.sinks [Sample.text, Sample.broken, Sample.json]
      Sample.ctx Sample.record [] []).1 1 (by decide) Sample.writeFailed
      (by decide) (by decide)).2⟩,
   ((Handle_first_failure_aborts Sample.sinks [Sample.text, Sample.json]
      Sample.ctx Sample.record [] []).2 (by decide)).2⟩

/-- C2. `MultiHandler.Enabled` returns true exactly when some delegate, at whatever position,
reports the level enabled, and false exactly when every delegate reports it disabled. -/
theorem Enabled_iff_some_delegate {H W : Type} (I : slog.Handler H W) (D : List H)
    (ctx : Context) (level : slog.Level) (w : W) :
    ((NewMultiHandler D).Enabled I ctx level w = true
      ↔ ∃ i, ∃ hi : i < D.length, I.Enabled D[i] ctx level w = true)
    ∧ ((NewMultiHandler D).Enabled I ctx level w = false
      ↔ ∀ i (hi : i < D.length), I.Enabled D[i] ctx level w = false) := by
  have key : (NewMultiHandler D).Enabled I ctx level w = true
      ↔ ∃ i, ∃ hi : i < D.length, I.Enabled D[i] ctx level w = true := by
    unfold MultiHandler.Enabled NewMultiHandler
    exact enabledLoop_iff_index I ctx level w D
  refine ⟨key, ?_⟩
  constructor
  · intro hf i hi
    cases hv : I.Enabled D[i] ctx level w with
    | false => rfl
    | true =>
      have := key.mpr ⟨i, hi, hv⟩
      rw [hf] at this
      exact absurd this (by decide)
  · intro hall
    cases hv : (NewMultiHandler D).Enabled I ctx level w with
    | false => rfl
    | true =>
      obtain ⟨i, hi, he⟩ := key.mp hv
      rw [hall i hi] at he
      exact absurd he (by decide)

/-- C2, evaluated: among the sample sinks `[broken, json]` only the second is enabled at level
Info, and `Enabled` is true; at level Debug neither is, and `Enabled` is false. -/
theorem Enabled_iff_some_delegate_witness :
    (NewMultiHandler [Sample.broken, Sample.json]).Enabled Sample.sinks Sample.ctx
        slog.LevelInfo [] = true
    ∧ (NewMultiHandler [Sample.broken, Sample.json]).Enabled Sample.sinks Sample.ctx
        slog.LevelDebug [] = false :=
  ⟨(Enabled_iff_some_delegate Sample.sinks [Sample.broken, Sample.json] Sample.ctx
      slog.LevelInfo []).1.mpr ⟨1, by decide, by decide⟩,
   (Enabled_iff_some_delegate Sample.sinks [Sample.broken, Sample.json] Sample.ctx
      slog.LevelDebug []).2.mpr (by decide)⟩

/-- C3. `MultiHandler.WithAttrs(A)` returns a `MultiHandler` with as many delegates as the
receiver, the one at position `i` being `D[i].WithAttrs(A)`; the receiver is the same struct
after the call, so its delegate sequence, its `Handle` and its `Enabled` are as before. -/
theorem WithAttrs_maps_delegates {H W : Type} (I : slog.Handler H W) (D : List H)
    (A : List slog.Attr) :
    ((NewMultiHandler D).WithAttrs I A).1.handlers.length = D.length
    ∧ (∀ i (hi : i < D.length) (hn : i < ((NewMultiHandler D).WithAttrs I A).1.handlers.length),
        ((NewMultiHandler D).WithAttrs I A).1.handlers[i] = I.WithAttrs D[i] A)
    ∧ ((NewMultiHandler D).WithAttrs I A).2 = NewMultiHandler D
    ∧ ((NewMultiHandler D).WithAttrs I A).2.handlers = D
    ∧ (∀ (ctx : Context) (r : slog.Record) (w : W),
        ((NewMultiHandler D).WithAttrs I A).2.Handle I ctx r w
          = (NewMultiHandler D).Handle I ctx r w)
    ∧ (∀ (ctx : Context) (level : slog.Level) (w : W),
        ((NewMultiHandler D).WithAttrs I A).2.Enabled I ctx level w
          = (NewMultiHandler D).Enabled I ctx level w) := by
  have hmap : ((NewMultiHandler D).WithAttrs I A).1.handlers
      = D.map (fun d => I.WithAttrs d A) := by
    simp [MultiHandler.WithAttrs, NewMultiHandler, withLoop_eq_map]
  refine ⟨by rw [hmap, List.length_map], ?_, rfl, rfl, fun _ _ _ => rfl, fun _ _ _ => rfl⟩
  intro i hi hn
  simp [hmap]

/-- C3, evaluated: the second delegate of `[text, json]` after `WithAttrs` with one attribute. -/
theorem WithAttrs_maps_delegates_witness :
    ((NewMultiHandler [Sample.text, Sample.json]).WithAttrs Sample.sinks
        [slog.StringAttr "k" "v"]).1.handlers[1]?
      = some { Sample.json with attrs := [slog.StringAttr "k" "v"] } := by
  have h := (WithAttrs_maps_delegates Sample.sinks [Sample.text, Sample.json]
    [slog.StringAttr "k" "v"]).2.1 1 (by decide) (by decide)
  rw [List.getElem?_eq_getElem (by decide), h]
  rfl

/-- C4. `MultiHandler.WithGroup(g)` returns a `MultiHandler` with as many delegates as the
receiver, the one at position `i` being `D[i].WithGroup(g)`; the receiver is the same struct
after the call, with the same delegate sequence. -/
theorem WithGroup_maps_delegates {H W : Type} (I : slog.Handler H W) (D : List H)
    (g : String) :
    ((NewMultiHandler D).WithGroup I g).1.handlers.length = D.length
    ∧ (∀ i (hi : i < D.length) (hn : i < ((NewMultiHandler D).WithGroup I g).1.handlers.length),
        ((NewMultiHandler D).WithGroup I g).1.handlers[i] = I.WithGroup D[i] g)
    ∧ ((NewMultiHandler D).WithGroup I g).2 = NewMultiHandler D
    ∧ ((NewMultiHandler D).WithGroup I g).2.handlers = D := by
  have hmap : ((NewMultiHandler D).WithGroup I g).1.handlers
      = D.map (fun d => I.WithGroup d g) := by
    simp [MultiHandler.WithGroup, NewMultiHandler, withLoop_eq_map]
  refine ⟨by rw [hmap, List.length_map], ?_, rfl, rfl⟩
  intro i hi hn
  simp [hmap]

/-- C4, evaluated: the first delegate of `[text, json]` after `WithGroup` with the group `req`. -/
theorem WithGroup_maps_delegates_witness :
    ((NewMultiHandler [Sample.text, Sample.json]).WithGroup Sample.sinks "req").1.handlers[0]?
      = some { Sample.text with groups := ["req"] } := by
  have h := (WithGroup_maps_delegates Sample.sinks [Sample.text, Sample.json]
    "req").2.1 0 (by decide) (by decide)
  rw [List.getElem?_eq_getElem (by decide), h]
  rfl

/-- C5. A `MultiHandler` built from zero delegates: `Enabled` is false for every level, and
`Handle` returns nil for every record, leaves the world as it was and calls no delegate. -/
theorem empty_MultiHandler {H W : Type} (I : slog.Handler H W) (ctx : Context)
    (level : slog.Level) (r : slog.Record) (w : W) (log : List H) :
    (NewMultiHandler ([] : List H)).Enabled I ctx level w = false
    ∧ (NewMultiHandler ([] : List H)).Handle I ctx r w = (none, w)
    ∧ (NewMultiHandler ([] : List H)).Handle I.traced ctx r (w, log) = (none, (w, log)) :=
  ⟨rfl, rfl, rfl⟩


/-- C5, evaluated: the empty handler over the sample sinks at level Error. -/
theorem empty_MultiHandler_witness :
    (NewMultiHandler ([] : List Sample.Sink)).Enabled Sample.sinks Sample.ctx slog.LevelError []
      = false
    ∧ (NewMultiHandler ([] : List Sample.Sink)).Handle Sample.sinks.traced Sample.ctx
        Sample.record ([4], []) = (none, ([4], [])) :=
  ⟨(empty_MultiHandler Sample.sinks Sample.ctx slog.LevelError Sample.record [4] []).1,
   (empty_MultiHandler Sample.sinks Sample.ctx slog.LevelError Sample.record [4] []).2.2⟩

/-- C6. Invariant under derivation: after any finite chain of `WithAttrs` and `WithGroup`
calls on `NewMultiHandler(d1..dN)`, the handler holds exactly `N` delegates, the one at
position `i` being `di` with the same chain applied in the same order; its `Enabled` is the
OR over these delegates, its `Handle` is the forwarding loop over them in the original order,
and when none of them fails every one of them is called once, in that order. -/
theorem derivation_chain_invariant {H W : Type} (I : slog.Handler H W) (ds : List H)
    (chain : List Derivation) (ctx : Context) (level : slog.Level) (r : slog.Record)
    (w : W) (log : List H) :
    (Derivation.chainOnMulti I chain (NewMultiHandler ds)).handlers.length = ds.length
    ∧ (∀ i (hi : i < ds.length)
        (hn : i < (Derivation.chainOnMulti I chain (NewMultiHandler ds)).handlers.length),
        (Derivation.chainOnMulti I chain (NewMultiHandler ds)).handlers[i]
          = Derivation.chainOnDelegate I chain ds[i])
    ∧ ((Derivation.chainOnMulti I chain (NewMultiHandler ds)).Enabled I ctx level w = true
        ↔ ∃ i, ∃ hi : i < ds.length,
            I.Enabled (Derivation.chainOnDelegate I chain ds[i]) ctx level w = true)
    ∧ (Derivation.chainOnMulti I chain (NewMultiHandler ds)).Handle I ctx r w
        = MultiHandler.handleLoop I ctx r (ds.map (Derivation.chainOnDelegate I chain)) w
    ∧ ((∀ i (hi : i < (ds.map (Derivation.chainOnDelegate I chain)).length),
          (I.Handle (ds.map (Derivation.chainOnDelegate I chain))[i] ctx r
            (handledBy I ctx r ((ds.map (Derivation.chainOnDelegate I chain)).take i) w)).1
            = none) →
        (Derivation.chainOnMulti I chain (NewMultiHandler ds)).Handle I.traced ctx r (w, log)
          = (none, (handledBy I ctx r (ds.map (Derivation.chainOnDelegate I chain)) w,
              log ++ ds.map (Derivation.chainOnDelegate I chain)))) := by
  have hmap : (Derivation.chainOnMulti I chain (NewMultiHandler ds)).handlers
      = ds.map (Derivation.chainOnDelegate I chain) := by
    unfold Derivation.chainOnMulti
    rw [chain_handlers]
    rfl
  refine ⟨by rw [hmap, List.length_map], ?_, ?_, ?_, ?_⟩
  · intro i hi hn
    simp [hmap]
  · unfold MultiHandler.Enabled
    rw [hmap, enabledLoop_iff_index]
    constructor
    · rintro ⟨i, hi, he⟩
      have hi2 : i < ds.length := by simpa using hi
      exact ⟨i, hi2, by simpa using he⟩
    · rintro ⟨i, hi, he⟩
      exact ⟨i, by simpa using hi, by simpa using he⟩
  · unfold MultiHandler.Handle
    rw [hmap]
  · intro hall
    unfold MultiHandler.Handle
    rw [hmap]
    have h := handleLoop_no_failure I.traced ctx r
      (ds.map (Derivation.chainOnDelegate I chain)) (w, log)
      (by
        intro i hi
        rw [handledBy_traced]
        exact hall i hi)
    rw [handledBy_traced] at h
    exact h

/-- C6, evaluated: the sample sinks `[text, json]` derived with one attribute and then the
group `req`: two delegates, each carrying the attribute and the group, both called in order. -/
theorem derivation_chain_invariant_witness :
    (Derivation.chainOnMulti Sample.sinks
        [Derivation.attrs [slog.StringAttr "k" "v"], Derivation.group "req"]
        (NewMultiHandler [Sample.text, Sample.json])).Handle Sample.sinks.traced
        Sample.ctx Sample.record ([], [])
      = (none, ([1, 2],
          [{ Sample.text with attrs := [slog.StringAttr "k" "v"], groups := ["req"] },
           { Sample.json with attrs := [slog.StringAttr "k" "v"], groups := ["req"] }])) :=
  (derivation_chain_invariant Sample.sinks [Sample.text, Sample.json]
    [Derivation.attrs [slog.StringAttr "k" "v"], Derivation.group "req"]
    Sample.ctx slog.LevelInfo Sample.record [] []).2.2.2.2 (by decide)

/-! ## Theorems: `sl/sl.go` -/

/-- C7. For every non-nil error, `Err` returns the attribute whose key is `error` and whose
value is the string value of `err.Error()`; two errors with the same message give the same
attribute, whatever their dynamic types. -/
theorem Err_key_and_value (e : GoError) :
    Err (some e) = .ok { Key := "error", Value := slog.StringValue e.Error }
    ∧ (∀ a, Err (some e) = .ok a → a.Key = "error" ∧ a.Value = slog.Value.KindString e.Error)
    ∧ (∀ e2 : GoError, e2.Error = e.Error → Err (some e2) = Err (some e)) := by
  refine ⟨rfl, ?_, ?_⟩
  · intro a ha
    simp only [Err, Except.ok.injEq] at ha
    subst ha
    exact ⟨rfl, rfl⟩
  · intro e2 h
    simp [Err, h]

/-- C7, evaluated: two errors of different dynamic types with the message `boom`. -/
theorem Err_key_and_value_witness :
    Err (some { dynType := "*fs.PathError", message := "boom" })
      = Err (some { dynType := "*errors.errorString", message := "boom" }) :=
  (Err_key_and_value { dynType := "*errors.errorString", message := "boom" }).2.2
    { dynType := "*fs.PathError", message := "boom" } rfl

end sl

/-! ## Theorems: `loader/loader.go` -/

namespace loader

/-- C8. `FetchConfigPath` resolves the path by the priority flag, then environment, then
unset: with `f` the value of `-config`, it returns `f` when `f` is not empty whatever the
environment holds, the value of `CONFIG_PATH` when `f` is empty, and the empty string when
`f` is empty and `CONFIG_PATH` is unset or empty. -/
theorem FetchConfigPath_priority (f : String) (env : String → Option String) :
    (f ≠ "" → FetchConfigPath (.parsed f) env = some f)
    ∧ (f = "" → FetchConfigPath (.parsed f) env = some (Getenv env "CONFIG_PATH"))
    ∧ (∀ e, f = "" → env "CONFIG_PATH" = some e → FetchConfigPath (.parsed f) env = some e)
    ∧ (f = "" → (env "CONFIG_PATH" = none ∨ env "CONFIG_PATH" = some "") →
        FetchConfigPath (.parsed f) env = some "") := by
  refine ⟨?_, ?_, ?_, ?_⟩
  · intro hf
    simp [FetchConfigPath, hf]
  · intro hf
    simp [FetchConfigPath, hf]
  · intro e hf he
    simp [FetchConfigPath, hf, Getenv, he]
  · intro hf he
    rcases he with he | he <;> simp [FetchConfigPath, hf, Getenv, he]

/-- C8, evaluated: the flag `a.yaml` wins over `CONFIG_PATH=b.yaml`; without the flag the
environment value is returned. -/
theorem FetchConfigPath_priority_witness :
    FetchConfigPath (.parsed "a.yaml")
        (fun k => if k = "CONFIG_PATH" then some "b.yaml" else none) = some "a.yaml"
    ∧ FetchConfigPath (.parsed "")
        (fun k => if k = "CONFIG_PATH" then some "b.yaml" else none) = some "b.yaml" :=
  ⟨(FetchConfigPath_priority "a.yaml"
      (fun k => if k = "CONFIG_PATH" then some "b.yaml" else none)).1 (by decide),
   (FetchConfigPath_priority ""
      (fun k => if k = "CONFIG_PATH" then some "b.yaml" else none)).2.2.1 "b.yaml" rfl rfl⟩

/-- C9. `MustLoad` panics when the configured path is empty, and then calls neither `os.Stat`
nor the parser; it panics when `os.Stat` reports that the file does not exist; it panics when
the parser returns an error; in every other case it returns the `cfg` it was given, in the
world the parser left. -/
theorem MustLoad_outcomes {C W : Type} (S : Sys C W) (cl : Loader) (cfg : C) (w : W)
    (log : List SysCall) :
    (cl.configPath = "" →
      cl.MustLoad S cfg w = (.error "config path is empty", w)
      ∧ cl.MustLoad S.traced cfg (w, log) = (.error "config path is empty", (w, log)))
    ∧ (cl.configPath ≠ "" → (S.Stat cl.configPath w).1 = StatResult.notExist →
      (cl.MustLoad S cfg w).1 = .error ("config file does not exist: " ++ cl.configPath))
    ∧ (∀ err, cl.configPath ≠ "" → (S.Stat cl.configPath w).1 ≠ StatResult.notExist →
      (S.ReadConfig cl.configPath cfg (S.Stat cl.configPath w).2).1 = some err →
      (cl.MustLoad S cfg w).1 = .error ("cannot read config: " ++ err.Error))
    ∧ (cl.configPath ≠ "" → (S.Stat cl.configPath w).1 ≠ StatResult.notExist →
      (S.ReadConfig cl.configPath cfg (S.Stat cl.configPath w).2).1 = none →
      cl.MustLoad S cfg w = (.ok cfg, (S.ReadConfig cl.configPath cfg (S.Stat cl.configPath w).2).2)
      ∧ (cl.MustLoad S.traced cfg (w, log)).2.2
          = log ++ [SysCall.stat cl.configPath, SysCall.readConfig cl.configPath]) := by
  refine ⟨?_, ?_, ?_, ?_⟩
  · intro hp
    simp [Loader.MustLoad, hp]
  · intro hp hs
    simp only [Loader.MustLoad, beq_iff_eq, hp, if_false, Loader.MustLoadPath]
    rcases hst : S.Stat cl.configPath w with ⟨res, w1⟩
    rw [hst] at hs
    simp only at hs
    subst hs
    rfl
  · intro err hp hs hr
    simp only [Loader.MustLoad, beq_iff_eq, hp, if_false, Loader.MustLoadPath]
    rcases hst : S.Stat cl.configPath w with ⟨res, w1⟩
    rw [hst] at hs hr
    simp only at hs hr
    rcases hrc : S.ReadConfig cl.configPath cfg w1 with ⟨e, w2⟩
    rw [hrc] at hr
    simp only at hr
    subst hr
    cases res <;> simp_all
  · intro hp hs hr
    constructor
    · simp only [Loader.MustLoad, beq_iff_eq, hp, if_false, Loader.MustLoadPath]
      rcases hst : S.Stat cl.configPath w with ⟨res, w1⟩
      rw [hst] at hs hr
      simp only at hs hr
      rcases hrc : S.ReadConfig cl.configPath cfg w1 with ⟨e, w2⟩
      rw [hrc] at hr
      simp only at hr
      subst hr
      cases res <;> simp_all
    · simp only [Loader.MustLoad, beq_iff_eq, hp, if_false, Loader.MustLoadPath, Sys.traced]
      rcases hst : S.Stat cl.configPath w with ⟨res, w1⟩
      rw [hst] at hs hr
      simp only at hs hr
      rcases hrc : S.ReadConfig cl.configPath cfg w1 with ⟨e, w2⟩
      rw [hrc] at hr
      simp only at hr
      subst hr
      cases res <;> simp_all

/-- C9, evaluated on the sample system: the empty path panics with no call made, a missing
file panics, a file the parser rejects panics, and `config.yaml` loads target `7`. -/
theorem MustLoad_outcomes_witness :
    (NewConfigLoader "").MustLoad Sample.disk.traced 7 ([], [])
      = (.error "config path is empty", ([], []))
    ∧ ((NewConfigLoader "missing.yaml").MustLoad Sample.disk 7 []).1
      = .error "config file does not exist: missing.yaml"
    ∧ ((NewConfigLoader "locked.yaml").MustLoad Sample.disk 7 []).1
      = .error "cannot read config: open locked.yaml: no access"
    ∧ (NewConfigLoader "config.yaml").MustLoad Sample.disk 7 [] = (.ok 7, [7]) :=
  ⟨((MustLoad_outcomes Sample.disk (NewConfigLoader "") 7 [] []).1 rfl).2,
   (MustLoad_outcomes Sample.disk (NewConfigLoader "missing.yaml") 7 [] []).2.1
      (by decide) (by decide),
   (MustLoad_outcomes Sample.disk (NewConfigLoader "locked.yaml") 7 [] []).2.2.1
      { dynType := "*fs.PathError", message := "open locked.yaml: no access" }
      (by decide) (by decide) (by decide),
   ((MustLoad_outcomes Sample.disk (NewConfigLoader "config.yaml") 7 [] []).2.2.2
      (by decide) (by decide) (by decide)).1⟩

end loader

/-! ## Theorems: `storage/postgres/postgres.go` -/

namespace postgres

theorem Stop_records {H G Q W : Type} (I : slog.Handler H W)
    (getDB : G → W → Except GoError Q × W) (close : Q → W → Option GoError × W)
    (s : Storage (slog.Logger H) G) (w : W) (recs : List slog.Record) :
    (∀ err, (getDB s.db w).1 = .error err →
        (s.Stop (Deps.recording I getDB close) (w, recs)).2.2
          = recs ++
            (if I.Enabled s.log.handler Context.Background slog.LevelWarn (getDB s.db w).2
              then [slog.NewRecord 0 slog.LevelWarn "failed to get *sql.DB instance" 0]
              else []))
    ∧ (∀ q err, (getDB s.db w).1 = .ok q → (close q (getDB s.db w).2).1 = some err →
        (s.Stop (Deps.recording I getDB close) (w, recs)).2.2
          = recs ++
            (if I.Enabled s.log.handler Context.Background slog.LevelWarn
                (close q (getDB s.db w).2).2
              then [slog.NewRecord 0 slog.LevelWarn "close database failed" 0]
              else []))
    ∧ (∀ q, (getDB s.db w).1 = .ok q → (close q (getDB s.db w).2).1 = none →
        (s.Stop (Deps.recording I getDB close) (w, recs)).2.2
          = recs ++
            (if I.Enabled s.log.handler Context.Background slog.LevelInfo
                (close q (getDB s.db w).2).2
              then [slog.NewRecord 0 slog.LevelInfo "database closed" 0]
              else [])) := by
  rcases hdb : getDB s.db w with ⟨res, w1⟩
  cases res with
  | error e0 =>
    refine ⟨?_, by simp, by simp⟩
    intro err _
    by_cases hen : I.Enabled s.log.handler Context.Background slog.LevelWarn w1 = true <;>
      simp [Storage.Stop, Deps.recording, Deps.ofLogger, slog.Logger.Warn, slog.Logger.log,
        slog.Handler.recording, hdb, hen]
  | ok q0 =>
    rcases hcl : close q0 w1 with ⟨res2, w2⟩
    cases res2 with
    | none =>
      refine ⟨by simp, ?_, ?_⟩
      · intro q err hq hc
        simp only [Except.ok.injEq] at hq
        subst hq
        simp [hcl] at hc
      · intro q hq _
        simp only [Except.ok.injEq] at hq
        subst hq
        by_cases hen : I.Enabled s.log.handler Context.Background slog.LevelInfo w2 = true <;>
          simp [Storage.Stop, Deps.recording, Deps.ofLogger, slog.Logger.Info, slog.Logger.log,
            slog.Handler.recording, hdb, hcl, hen]
    | some e1 =>
      refine ⟨by simp, ?_, ?_⟩
      · intro q err hq _
        simp only [Except.ok.injEq] at hq
        subst hq
        by_cases hen : I.Enabled s.log.handler Context.Background slog.LevelWarn w2 = true <;>
          simp [Storage.Stop, Deps.recording, Deps.ofLogger, slog.Logger.Warn, slog.Logger.log,
            slog.Handler.recording, hdb, hcl, hen]
      · intro q hq hc
        simp only [Except.ok.injEq] at hq
        subst hq
        simp [hcl] at hc

/-- C10, as amended. `Stop` never propagates a failure: whatever `DB()` and `Close()` return,
`Stop` returns normally and makes exactly one logging call (the observed calls hold one `Warn`
or `Info`). When `DB()` fails the call is the warning `failed to get *sql.DB instance` and
`Close` is not called; when `Close` fails it is the warning `close database failed`; the info
call `database closed` is made exactly when `Close` succeeded. With a `slog.Logger` the call
emits one log record when the handler of the logger is enabled at the level of the call (Warn
or Info), and no record otherwise. -/
theorem Stop_swallows_and_logs_once {L G Q W H : Type} (E : Deps L G Q W) (s : Storage L G)
    (w : W) (log : List Event) (I : slog.Handler H W) (l : slog.Logger H)
    (recs : List slog.Record) :
    ((∀ err, (E.DB s.db w).1 = .error err →
        (Storage.Stop (Deps.recording I E.DB E.Close) { log := l, db := s.db } (w, recs)).2.2
          = recs ++
            (if I.Enabled l.handler Context.Background slog.LevelWarn (E.DB s.db w).2
              then [slog.NewRecord 0 slog.LevelWarn "failed to get *sql.DB instance" 0]
              else []))
      ∧ (∀ q err, (E.DB s.db w).1 = .ok q → (E.Close q (E.DB s.db w).2).1 = some err →
        (Storage.Stop (Deps.recording I E.DB E.Close) { log := l, db := s.db } (w, recs)).2.2
          = recs ++
            (if I.Enabled l.handler Context.Background slog.LevelWarn
                (E.Close q (E.DB s.db w).2).2
              then [slog.NewRecord 0 slog.LevelWarn "close database failed" 0]
              else []))
      ∧ (∀ q, (E.DB s.db w).1 = .ok q → (E.Close q (E.DB s.db w).2).1 = none →
        (Storage.Stop (Deps.recording I E.DB E.Close) { log := l, db := s.db } (w, recs)).2.2
          = recs ++
            (if I.Enabled l.handler Context.Background slog.LevelInfo
                (E.Close q (E.DB s.db w).2).2
              then [slog.NewRecord 0 slog.LevelInfo "database closed" 0]
              else [])))
    ∧ (s.Stop E w).1 = .ok ()
    ∧ (∀ err, (E.DB s.db w).1 = .error err →
        s.Stop E w = (.ok (), E.Warn s.log "failed to get *sql.DB instance" (E.DB s.db w).2)
        ∧ (s.Stop E.traced (w, log)).2.2
            = log ++ [Event.getDB, Event.warn "failed to get *sql.DB instance"])
    ∧ (∀ q err, (E.DB s.db w).1 = .ok q → (E.Close q (E.DB s.db w).2).1 = some err →
        s.Stop E w
          = (.ok (), E.Warn s.log "close database failed" (E.Close q (E.DB s.db w).2).2)
        ∧ (s.Stop E.traced (w, log)).2.2
            = log ++ [Event.getDB, Event.close, Event.warn "close database failed"])
    ∧ (∀ q, (E.DB s.db w).1 = .ok q → (E.Close q (E.DB s.db w).2).1 = none →
        s.Stop E w = (.ok (), E.Info s.log "database closed" (E.Close q (E.DB s.db w).2).2)
        ∧ (s.Stop E.traced (w, log)).2.2
            = log ++ [Event.getDB, Event.close, Event.info "database closed"])
    ∧ (Event.info "database closed" ∈ (s.Stop E.traced (w, [])).2.2 →
        ∃ q, (E.DB s.db w).1 = .ok q ∧ (E.Close q (E.DB s.db w).2).1 = none)
    ∧ ((s.Stop E.traced (w, [])).2.2.filter Event.isLog).length = 1 := by
  refine ⟨Stop_records I E.DB E.Close { log := l, db := s.db } w recs, ?_⟩
  rcases hdb : E.DB s.db w with ⟨res, w1⟩
  cases res with
  | error e0 =>
    simp [Storage.Stop, Deps.traced, hdb, Event.isLog]
  | ok q0 =>
    rcases hcl : E.Close q0 w1 with ⟨res2, w2⟩
    cases res2 with
    | none =>
      refine ⟨by simp [Storage.Stop, hdb, hcl], by simp, ?_, ?_, ?_, ?_⟩
      · intro q err hq hc
        simp only [Except.ok.injEq] at hq
        subst hq
        simp [hcl] at hc
      · intro q hq _
        simp only [Except.ok.injEq] at hq
        subst hq
        simp [Storage.Stop, Deps.traced, hdb, hcl]
      · intro _
        exact ⟨q0, rfl, by simp [hcl]⟩
      · simp [Storage.Stop, Deps.traced, hdb, hcl, Event.isLog]
    | some e1 =>
      refine ⟨by simp [Storage.Stop, hdb, hcl], by simp, ?_, ?_, ?_, ?_⟩
      · intro q err hq _
        simp only [Except.ok.injEq] at hq
        subst hq
        simp [Storage.Stop, Deps.traced, hdb, hcl]
      · intro q hq hc
        simp only [Except.ok.injEq] at hq
        subst hq
        simp [hcl] at hc
      · intro hmem
        simp [Storage.Stop, Deps.traced, hdb, hcl] at hmem
      · simp [Storage.Stop, Deps.traced, hdb, hcl, Event.isLog]

/-- C10 as amended, evaluated on the sample collaborators: a failing `DB()`, a failing
`Close()` and a clean close each leave one log line; and a logger over the sample sink `text`,
enabled from level Debug on, emits the one record `database closed` on a clean close. -/
theorem Stop_swallows_and_logs_once_witness :
    Storage.Stop Sample.deps { log := (), db := (false, true) } []
      = (.ok (), ["WARN failed to get *sql.DB instance"])
    ∧ Storage.Stop Sample.deps { log := (), db := (true, false) } []
      = (.ok (), ["WARN close database failed"])
    ∧ Storage.Stop Sample.deps { log := (), db := (true, true) } []
      = (.ok (), ["INFO database closed"])
    ∧ (Storage.Stop (Deps.recording Sample.sinks Sample.getDB Sample.closeDB)
        { log := { handler := Sample.text }, db := (true, true) } ([], [])).2.2
      = [slog.NewRecord 0 slog.LevelInfo "database closed" 0] :=
  ⟨((Stop_swallows_and_logs_once Sample.deps { log := (), db := (false, true) } [] []
      Sample.recorder { handler := Sample.text } []).2.2.1
      { dynType := "*errors.errorString", message := "invalid db" } rfl).1,
   ((Stop_swallows_and_logs_once Sample.deps { log := (), db := (true, false) } [] []
      Sample.recorder { handler := Sample.text } []).2.2.2.1
      false { dynType := "*errors.errorString", message := "close failed" } rfl rfl).1,
   ((Stop_swallows_and_logs_once Sample.deps { log := (), db := (true, true) } [] []
      Sample.recorder { handler := Sample.text } []).2.2.2.2.1
      true rfl rfl).1,
   (Stop_swallows_and_logs_once
      (Deps.ofLogger Sample.sinks Sample.getDB Sample.closeDB)
      { log := { handler := Sample.text }, db := (true, true) } [] []
      Sample.sinks { handler := Sample.text } []).1.2.2 true rfl rfl⟩

/-- C10 as stated fails: with a `slog.Logger` whose handler accepts records from level Error
on only, a clean close makes `Stop` call `Info`, and no log record is emitted: the number of
records is 0, not 1. -/
theorem Stop_emits_no_record_below_level :
    (Storage.Stop (Deps.recording Sample.sinks Sample.getDB Sample.closeDB)
        { log := { handler := Sample.errorsOnly }, db := (true, true) } ([], [])).1 = .ok ()
    ∧ (Storage.Stop (Deps.recording Sample.sinks Sample.getDB Sample.closeDB)
        { log := { handler := Sample.errorsOnly }, db := (true, true) } ([], [])).2.2 = []
    ∧ ¬ ((Storage.Stop (Deps.recording Sample.sinks Sample.getDB Sample.closeDB)
        { log := { handler := Sample.errorsOnly }, db := (true, true) } ([], [])).2.2.length
          = 1) := by
  refine ⟨rfl, ?_, ?_⟩ <;> decide

end postgres
